import Mathlib

/-!
Shallow embedding of the gesture-driven particle-flower application
(src/App.tsx, src/components/Rose.tsx, src/components/RoseExperience.tsx).

Shader code (GLSL, 32-bit float) and the JS gesture interpreter are modelled
over the real numbers.  Every definition is translated directly from the
source; file and line references are given next to each definition.
-/

noncomputable section

/-- A 2D point; models a MediaPipe hand landmark (normalized coordinates). -/
@[ext]
structure Vec2 where
  x : ℝ
  y : ℝ

/-- A 3D point/vector, as in the GLSL vec3 type. -/
@[ext]
structure Vec3 where
  x : ℝ
  y : ℝ
  z : ℝ

namespace Rose

/-- GLSL fract: x - floor x, always in [0,1). -/
def fract (x : ℝ) : ℝ := Int.fract x

/-- GLSL floor as a real-valued function. -/
def floorG (x : ℝ) : ℝ := (⌊x⌋ : ℤ)

/-- GLSL mix(a, b, t) = a + (b - a) * t. -/
def mix1 (a b t : ℝ) : ℝ := a + (b - a) * t

/-- GLSL clamp(x, lo, hi) = min(max(x, lo), hi). -/
def clampG (x lo hi : ℝ) : ℝ := min (max x lo) hi

/-- GLSL smoothstep(e0, e1, x): Hermite interpolation of the clamped ramp. -/
def smoothstep (e0 e1 x : ℝ) : ℝ :=
  let t := clampG ((x - e0) / (e1 - e0)) 0 1
  t * t * (3 - 2 * t)

/-- THREE.MathUtils.lerp(a, b, t) = a + (b - a) * t. -/
def lerp (a b t : ℝ) : ℝ := a + (b - a) * t

/-- Pseudo-random noise from Rose.tsx vertex shader:
hash(p) = fract(sin(dot(p, vec2(12.9898, 78.233))) * 43758.5453). -/
def hash (p : Vec2) : ℝ :=
  fract (Real.sin (p.x * 12.9898 + p.y * 78.233) * 43758.5453)

/-- Value noise from Rose.tsx vertex shader (bilinear blend of corner hashes
with a smooth fade curve). -/
def noise (p : Vec2) : ℝ :=
  let ix := floorG p.x
  let iy := floorG p.y
  let fx0 := fract p.x
  let fy0 := fract p.y
  let fx := fx0 * fx0 * (3 - 2 * fx0)
  let fy := fy0 * fy0 * (3 - 2 * fy0)
  mix1 (mix1 (hash ⟨ix, iy⟩) (hash ⟨ix + 1, iy⟩) fx)
       (mix1 (hash ⟨ix, iy + 1⟩) (hash ⟨ix + 1, iy + 1⟩) fx) fy

/-- GLSL atan(y, x): the angle of the point (x, y), in (-pi, pi].  Modelled by
the complex argument of x + y*i, which agrees with the two-argument
arctangent wherever GLSL defines it. -/
def atan2 (y x : ℝ) : ℝ := Complex.arg ((x : ℂ) + (y : ℂ) * Complex.I)

/-- Euclidean length of a vec3. -/
def length3 (v : Vec3) : ℝ := Real.sqrt (v.x ^ 2 + v.y ^ 2 + v.z ^ 2)

/-- GLSL normalize(v) = v / length(v) componentwise.  (GLSL leaves the zero
vector undefined; real division by zero yields the zero vector here.) -/
def normalize3 (v : Vec3) : Vec3 :=
  ⟨v.x / length3 v, v.y / length3 v, v.z / length3 v⟩

/-- The shader uniforms of Rose.tsx (uColor is not needed for any claim about
positions and activations and is omitted). -/
structure Uniforms where
  uTime : ℝ
  uPetalCount : ℝ
  uTwist : ℝ
  uOpenness : ℝ
  uDetail : ℝ
  uParticleSize : ℝ
  uScanY : ℝ

/-- The immutable per-particle vertex attributes of Rose.tsx:
position, aRandom, aType (0 flower, 1 stem, 2 leaf), aDirection. -/
structure Particle where
  position : Vec3
  aRandom : ℝ
  aType : ℝ
  aDirection : Vec3

/-- getTulipDisplacement from the Rose.tsx vertex shader (lines 50-63). -/
def getTulipDisplacement (u : Uniforms) (position : Vec3) : ℝ :=
  let spherePos := normalize3 position
  let theta := atan2 spherePos.z spherePos.x
  let phi := Real.arccos spherePos.y
  let twistedTheta := theta + phi * u.uTwist
  let petals := Real.sin (twistedTheta * u.uPetalCount)
  let shape := petals
  let bloom := smoothstep 0 1.5 (1.5 - phi) * u.uOpenness * petals
  let surfaceNoise :=
    noise ⟨position.x * 4 + u.uTime * 0.05, position.z * 4 + u.uTime * 0.05⟩
      * 0.05 * u.uDetail
  shape * 0.15 + bloom + surfaceNoise

/-- The SHAPE GENERATION section of the vertex shader main (Rose.tsx lines
71-91): the procedurally displaced final position before the construction
scan.  (The stem bend pow((pos.y+6)/6, 2.0) is modelled as real squaring.) -/
def shapePos (u : Uniforms) (p : Particle) : Vec3 :=
  if p.aType < 0.5 then
    let disp := getTulipDisplacement u p.position
    let normal := normalize3 ⟨p.position.x, p.position.y * 0.5, p.position.z⟩
    ⟨p.position.x + normal.x * disp + Real.sin (u.uTime * 0.3) * 0.1,
     p.position.y + normal.y * disp,
     p.position.z + normal.z * disp⟩
  else
    let bendFactor := ((p.position.y + 6) / 6) ^ 2
    let windX := Real.sin (u.uTime * 0.4) * 0.2 * bendFactor
    let windZ := Real.cos (u.uTime * 0.3) * 0.1 * bendFactor
    let pos : Vec3 := ⟨p.position.x + windX, p.position.y, p.position.z + windZ⟩
    if p.aType > 1.5 then
      ⟨pos.x + p.aDirection.x * Real.sin (u.uTime * 0.8 + pos.y) * 0.02,
       pos.y + p.aDirection.y * Real.sin (u.uTime * 0.8 + pos.y) * 0.02,
       pos.z + p.aDirection.z * Real.sin (u.uTime * 0.8 + pos.y) * 0.02⟩
    else pos

/-- The construction-scan activation (Rose.tsx lines 93-107):
smoothstep(-1, 1, (finalPos.y - uScanY) + (aRandom - 0.5)*2). -/
def activation (u : Uniforms) (p : Particle) : ℝ :=
  smoothstep (-1) 1 ((shapePos u p).y - u.uScanY + (p.aRandom - 0.5) * 2)

/-- Corner selection of the fly-in effect (Rose.tsx lines 111-117):
one of 4 fixed top corners chosen by floor(aRandom * 4). -/
def cornerBase (r : ℝ) : Vec3 :=
  let boxSize : ℝ := 12.5
  let cornerID := floorG (r * 4)
  if cornerID < 0.5 then ⟨boxSize, boxSize, boxSize⟩
  else if cornerID < 1.5 then ⟨-boxSize, boxSize, boxSize⟩
  else if cornerID < 2.5 then ⟨-boxSize, boxSize, -boxSize⟩
  else ⟨boxSize, boxSize, -boxSize⟩

/-- Seed-derived jitter added to the spawn corner (Rose.tsx line 120):
(vec3(hash(r,0.1), hash(r,0.2), hash(r,0.3)) - 0.5) * 0.5. -/
def cornerJitter (r : ℝ) : Vec3 :=
  ⟨(hash ⟨r, 0.1⟩ - 0.5) * 0.5,
   (hash ⟨r, 0.2⟩ - 0.5) * 0.5,
   (hash ⟨r, 0.3⟩ - 0.5) * 0.5⟩

/-- The jittered spawn corner cornerPos of the vertex shader. -/
def cornerPos (r : ℝ) : Vec3 :=
  ⟨(cornerBase r).x + (cornerJitter r).x,
   (cornerBase r).y + (cornerJitter r).y,
   (cornerBase r).z + (cornerJitter r).z⟩

/-- Componentwise GLSL mix of two vec3. -/
def mix3 (a b : Vec3) (t : ℝ) : Vec3 :=
  ⟨mix1 a.x b.x t, mix1 a.y b.y t, mix1 a.z b.z t⟩

/-- The displayed render position of the vertex shader (Rose.tsx lines
122-128): mix(cornerPos, finalPos, t) with t = 1 - (1 - activation)^4. -/
def displayedPos (u : Uniforms) (p : Particle) : Vec3 :=
  mix3 (cornerPos p.aRandom) (shapePos u p) (1 - (1 - activation u p) ^ 4)

/-- The scan plane height (Rose.tsx useFrame, lines 426-430, and
TrackingBeam): THREE.MathUtils.lerp(10.0, -12.0, growth). -/
def scanY (growth : ℝ) : ℝ := lerp 10 (-12) growth

/-- Numeric part of the RoseConfig interface (types.ts; the color string is
irrelevant to positions). -/
structure RoseConfig where
  petalCount : ℝ
  twist : ℝ
  openness : ℝ
  detail : ℝ
  speed : ℝ
  particleSize : ℝ

/-- The per-frame uniform update of Rose.tsx useFrame (lines 415-432):
uTime = elapsed * config.speed, shape params copied, uScanY = lerp(10,-12,g). -/
def mkUniforms (c : RoseConfig) (growth elapsed : ℝ) : Uniforms :=
  { uTime := elapsed * c.speed
    uPetalCount := c.petalCount
    uTwist := c.twist
    uOpenness := c.openness
    uDetail := c.detail
    uParticleSize := c.particleSize
    uScanY := scanY growth }

/-- CINEMATIC_CONFIG from App.tsx (numeric fields). -/
def cinematicConfig : RoseConfig :=
  { petalCount := 3, twist := 0.8, openness := 0.6, detail := 0.5,
    speed := 0.15, particleSize := 0.022 }

/-- Rotation of a vec3 about the vertical (y) axis by angle a; used to state
the azimuth-periodicity claim about getTulipDisplacement. -/
def rotateY (a : ℝ) (v : Vec3) : Vec3 :=
  ⟨Real.cos a * v.x - Real.sin a * v.z,
   v.y,
   Real.sin a * v.x + Real.cos a * v.z⟩

/-- Stem particle direction attribute from the Rose geometry generator
(Rose.tsx line 359): (cos theta, 0, sin theta). -/
def stemDirection (theta : ℝ) : Vec3 := ⟨Real.cos theta, 0, Real.sin theta⟩

/-- Leaf particle direction attribute from the Rose geometry generator
(Rose.tsx line 390): (px, 0, pz). -/
def leafDirection (px pz : ℝ) : Vec3 := ⟨px, 0, pz⟩

end Rose

/-- The distortion control state published by App.tsx (NDC cursor plus
activation flag). -/
structure DistortionState where
  x : ℝ
  y : ℝ
  active : Bool

/-- The mutable application state owned by App.tsx: growth and distortion
refs, the UI feedback flags, and the camera lifecycle flags. -/
structure AppState where
  growth : ℝ
  distortion : DistortionState
  isPinching : Bool
  isDistorting : Bool
  permissionError : Bool
  loading : Bool
  cameraRunning : Bool

namespace App

/-- A detected hand: 21 normalized 2D landmarks (MediaPipe). -/
def Hand := Fin 21 → Vec2

/-- Thumb tip landmark (index 4), as read by predictWebcam. -/
def thumbTip (h : Hand) : Vec2 := h 4

/-- Index finger tip landmark (index 8), as read by predictWebcam. -/
def indexTip (h : Hand) : Vec2 := h 8

/-- The aspect-ratio correction constant of App.tsx: 640 / 480. -/
def aspect : ℝ := 640 / 480

/-- Pinch distance (App.tsx line 178):
Math.hypot((thumb.x - index.x) * aspectRatio, thumb.y - index.y). -/
def pinchDist (thumb index : Vec2) : ℝ :=
  Real.sqrt (((thumb.x - index.x) * aspect) ^ 2 + (thumb.y - index.y) ^ 2)

/-- clamp to [0,1] as in App.tsx line 186: Math.max(0, Math.min(1, raw)). -/
def clamp01 (x : ℝ) : ℝ := max 0 (min 1 x)

/-- The snapped target growth while pinching (App.tsx lines 183-188):
raw = (pinchY - 0.2)/(0.8 - 0.2), clamped to [0,1], then snapped to 1.0
above 0.85 and to 0.0 below 0.15. -/
def snapTarget (pinchY : ℝ) : ℝ :=
  let rawProgress := (pinchY - 0.2) / (0.8 - 0.2)
  let t1 := clamp01 rawProgress
  let t2 := if t1 > 0.85 then 1.0 else t1
  if t2 < 0.15 then 0.0 else t2

/-- One exponential-smoothing tick g := g + (target - g) * k, the update shape
shared by the pinch rule (k = 0.15) and the auto-snap rule (k = 0.1). -/
def step (k target g : ℝ) : ℝ := g + (target - g) * k

/-- The growth update while pinching (App.tsx line 189). -/
def pinchGrowthUpdate (pinchY g : ℝ) : ℝ := g + (snapTarget pinchY - g) * 0.15

/-- The growth update when a primary hand is present but not pinching
(App.tsx lines 190-193): ease toward the nearest terminal state when close
to it, otherwise hold. -/
def autoSnapStep (g : ℝ) : ℝ :=
  if g > 0.85 then g + (1.0 - g) * 0.1
  else if g < 0.15 then g + (0.0 - g) * 0.1
  else g

/-- Hand 0 (primary) processing of predictWebcam (App.tsx lines 172-198).
When no hand is detected only the UI pinch flag is cleared; the growth ref
is not written at all. -/
def processHand0 (hands : List Hand) (s : AppState) : AppState :=
  match hands with
  | [] => { s with isPinching := false }
  | h :: _ =>
    let dist := pinchDist (thumbTip h) (indexTip h)
    let g :=
      if dist < 0.06 then
        pinchGrowthUpdate (((thumbTip h).y + (indexTip h).y) / 2) s.growth
      else autoSnapStep s.growth
    { s with isPinching := decide (dist < 0.06), growth := g }

/-- Hand 1 (secondary) processing of predictWebcam (App.tsx lines 200-225).
When present, the full distortion state is published with active = pinching;
when absent, only the active flag is cleared. -/
def processHand1 (hands : List Hand) (s : AppState) : AppState :=
  match hands with
  | _ :: h :: _ =>
    let dist := pinchDist (thumbTip h) (indexTip h)
    let midX := ((thumbTip h).x + (indexTip h).x) / 2
    let midY := ((thumbTip h).y + (indexTip h).y) / 2
    { s with isDistorting := decide (dist < 0.06)
             distortion :=
               { x := 1 - 2 * midX, y := 1 - 2 * midY,
                 active := decide (dist < 0.06) } }
  | _ => { s with isDistorting := false
                  distortion := { s.distortion with active := false } }

/-- One detection frame of predictWebcam: hand 0 then hand 1. -/
def processFrame (hands : List Hand) (s : AppState) : AppState :=
  processHand1 hands (processHand0 hands s)

/-- The lifecycle events of App.tsx: camera start success/failure
(startCamera, lines 45-68), MediaPipe init failure (setupMediaPipe catch,
lines 253-257), and a detection frame. -/
inductive Event where
  | camOk
  | camFail
  | mediaFail
  | frame (hands : List Hand)

/-- The initial App state: growth 0, distortion inactive, loading. -/
def initState : AppState :=
  { growth := 0
    distortion := { x := 0, y := 0, active := false }
    isPinching := false
    isDistorting := false
    permissionError := false
    loading := true
    cameraRunning := false }

/-- The effect of each lifecycle event, from the App.tsx handlers: camera
failure sets the recoverable permissionError status and forces growth to 1.0;
MediaPipe failure forces growth to 1.0; detection frames only run once the
camera stream is live (predictWebcam is started from the loadeddata
listener). -/
def stepEvent (s : AppState) (e : Event) : AppState :=
  match e with
  | .camOk => { s with loading := false, cameraRunning := true }
  | .camFail => { s with permissionError := true, loading := false, growth := 1.0 }
  | .mediaFail => { s with loading := false, growth := 1.0 }
  | .frame hands => if s.cameraRunning then processFrame hands s else s

/-- Folding a list of lifecycle events over a state. -/
def runEvents (es : List Event) (s : AppState) : AppState := es.foldl stepEvent s

end App

/-- The rendered position of a particle as a function of the published
distortion state.  RoseExperience.tsx (lines 139-146) passes distortPosRef
and distortActiveRef into Rose, but RoseProps (Rose.tsx lines 6-9) declares
neither prop and the vertex shader has no distortion uniform or perturbation
term, so the rendered position is the construction output regardless of the
distortion state. -/
def renderedPosition (_d : DistortionState) (u : Rose.Uniforms)
    (p : Rose.Particle) : Vec3 :=
  Rose.displayedPos u p

/-- A running App state with a given growth value (camera live, nothing else
active); used to instantiate frame-processing statements. -/
def mkState (g : ℝ) : AppState :=
  { growth := g
    distortion := { x := 0, y := 0, active := false }
    isPinching := false
    isDistorting := false
    permissionError := false
    loading := false
    cameraRunning := true }

/-!  ## Theorems  -/

/-- C1: the claim asserts that with the secondary hand distortion active the
per-particle displayed positions are perturbed near the cursor, and that for
some particle and active cursor state the displayed position differs from the
inactive-state output.  In the code, Rose.tsx declares no distortion props
(RoseProps, lines 6-9) and its vertex shader has no distortion uniform, even
though RoseExperience.tsx passes distortPosRef and distortActiveRef into Rose
(lines 139-146) and the README documents the distortion effect.  Evaluating
the render pass: the displayed position is identical for any two distortion
states, for every particle, every uniform setting. -/
theorem rose_ignores_distortion_state (d1 d2 : DistortionState)
    (u : Rose.Uniforms) (p : Rose.Particle) :
    renderedPosition d1 u p = renderedPosition d2 u p := rfl

/-- C2 counterexample: the claim says that with the primary hand absent,
growth evolves per the not-pinching rule (ease toward 1.0 with gain 0.1 when
above 0.85).  At growth 0.9 the not-pinching rule gives 0.91, but a frame
with no hands leaves growth at exactly 0.9: the growth ref is not written at
all on the no-hand path (App.tsx lines 196-198 only clear the pinch flag). -/
theorem no_hand_frame_growth_counterexample :
    (App.processFrame [] (mkState 0.9)).growth = 0.9
      ∧ App.autoSnapStep 0.9 = 0.91
      ∧ (0.9 : ℝ) ≠ 0.91 := by
  refine ⟨rfl, ?_, by norm_num⟩
  unfold App.autoSnapStep
  rw [if_pos (by norm_num)]
  norm_num

/-- C2 amended: in a detection frame with no primary hand, pinching is forced
false and growth is held exactly unchanged for every current value (the
auto-snap rule does not run); in particular growth 0.5 remains exactly 0.5
over every number of subsequent no-hand frames. -/
theorem no_hand_frame_holds_growth :
    (∀ s : AppState, (App.processFrame [] s).isPinching = false
        ∧ (App.processFrame [] s).growth = s.growth)
    ∧ (∀ (s : AppState) (n : ℕ),
        ((App.processFrame [])^[n] s).growth = s.growth)
    ∧ (∀ n : ℕ, ((App.processFrame [])^[n] (mkState 0.5)).growth = 0.5) := by
  have hhold : ∀ (s : AppState) (n : ℕ),
      ((App.processFrame [])^[n] s).growth = s.growth := by
    intro s n
    induction n generalizing s with
    | zero => rfl
    | succ n ih =>
      rw [Function.iterate_succ_apply]
      exact (ih _).trans rfl
  exact ⟨fun s => ⟨rfl, rfl⟩, hhold, fun n => hhold (mkState 0.5) n⟩

/-- C4: the scan height is scanY(growth) = lerp(10, -12, growth), strictly
decreasing with scanY 0 = 10 and scanY 1 = -12, and for every particle the
construction activation equals
smoothstep(-1, 1, (finalPosition.y - scanY) + (randomSeed - 0.5) * 2). -/
theorem scan_plane_monotone_and_activation :
    (∀ g : ℝ, Rose.scanY g = Rose.lerp 10 (-12) g)
    ∧ Rose.scanY 0 = 10
    ∧ Rose.scanY 1 = -12
    ∧ (∀ g1 g2 : ℝ, g1 < g2 → Rose.scanY g2 < Rose.scanY g1)
    ∧ (∀ (c : Rose.RoseConfig) (g t : ℝ) (p : Rose.Particle),
        Rose.activation (Rose.mkUniforms c g t) p
          = Rose.smoothstep (-1) 1
              (((Rose.shapePos (Rose.mkUniforms c g t) p).y - Rose.scanY g)
                + (p.aRandom - 0.5) * 2)) := by
  refine ⟨fun g => rfl, by norm_num [Rose.scanY, Rose.lerp],
    by norm_num [Rose.scanY, Rose.lerp], ?_, fun c g t p => rfl⟩
  intro g1 g2 h
  simp only [Rose.scanY, Rose.lerp]
  linarith

/-- Witness for C4 at growth values 0 and 1. -/
theorem scan_plane_monotone_and_activation_witness :
    (0 : ℝ) < 1 ∧ Rose.scanY 1 < Rose.scanY 0 :=
  ⟨by norm_num, scan_plane_monotone_and_activation.2.2.2.1 0 1 (by norm_num)⟩

/-- The shader hash lies in [0, 1) for every input: it is a fract. -/
theorem hash_mem_Ico (p : Vec2) : 0 ≤ Rose.hash p ∧ Rose.hash p < 1 :=
  ⟨Int.fract_nonneg _, Int.fract_lt_one _⟩

/-- C5: the displayed render position is
mix(spawnCorner, finalPosition, t) with t = 1 - (1 - activation)^4, where the
spawn corner base is one of exactly 4 fixed points (boxSize 12.5, all with
y = +12.5) selected by floor(randomSeed * 4) -- a total assignment for every
seed in [0, 1) -- plus a seed-derived jitter of magnitude at most 0.25 per
component. -/
theorem corner_spawn_mix_structure (u : Rose.Uniforms) (p : Rose.Particle)
    (h0 : 0 ≤ p.aRandom) (h1 : p.aRandom < 1) :
    Rose.displayedPos u p
      = Rose.mix3 (Rose.cornerPos p.aRandom) (Rose.shapePos u p)
          (1 - (1 - Rose.activation u p) ^ 4)
    ∧ (Rose.cornerBase p.aRandom = ⟨12.5, 12.5, 12.5⟩
        ∨ Rose.cornerBase p.aRandom = ⟨-12.5, 12.5, 12.5⟩
        ∨ Rose.cornerBase p.aRandom = ⟨-12.5, 12.5, -12.5⟩
        ∨ Rose.cornerBase p.aRandom = ⟨12.5, 12.5, -12.5⟩)
    ∧ (Rose.cornerBase p.aRandom).y = 12.5
    ∧ |(Rose.cornerJitter p.aRandom).x| ≤ 0.25
    ∧ |(Rose.cornerJitter p.aRandom).y| ≤ 0.25
    ∧ |(Rose.cornerJitter p.aRandom).z| ≤ 0.25 := by
  have hmem : Rose.cornerBase p.aRandom = ⟨12.5, 12.5, 12.5⟩
      ∨ Rose.cornerBase p.aRandom = ⟨-12.5, 12.5, 12.5⟩
      ∨ Rose.cornerBase p.aRandom = ⟨-12.5, 12.5, -12.5⟩
      ∨ Rose.cornerBase p.aRandom = ⟨12.5, 12.5, -12.5⟩ := by
    have hlb : (0 : ℤ) ≤ ⌊p.aRandom * 4⌋ := Int.floor_nonneg.mpr (by nlinarith)
    have hub : ⌊p.aRandom * 4⌋ < 4 := by
      rw [Int.floor_lt]
      push_cast
      nlinarith
    unfold Rose.cornerBase Rose.floorG
    interval_cases h : ⌊p.aRandom * 4⌋ <;> norm_num
  have hjit : ∀ q : Vec2, |(Rose.hash q - 0.5) * 0.5| ≤ 0.25 := by
    intro q
    obtain ⟨hq0, hq1⟩ := hash_mem_Ico q
    rw [abs_le]
    constructor <;> nlinarith
  refine ⟨rfl, hmem, ?_, hjit _, hjit _, hjit _⟩
  rcases hmem with h | h | h | h <;> rw [h]

/-- A hand whose thumb tip (landmark 4) is t and every other landmark i;
used to instantiate detection frames. -/
def handAt (t i : Vec2) : App.Hand := fun j => if j.val = 4 then t else i

/-- The thumb tip of handAt t i is t. -/
theorem thumbTip_handAt (t i : Vec2) : App.thumbTip (handAt t i) = t := by
  show (if ((4 : Fin 21) : ℕ) = 4 then t else i) = t
  rw [if_pos (by decide)]

/-- The index tip of handAt t i is i (landmark 8 is not landmark 4). -/
theorem indexTip_handAt (t i : Vec2) : App.indexTip (handAt t i) = i := by
  show (if ((8 : Fin 21) : ℕ) = 4 then t else i) = i
  rw [if_neg (by decide)]

/-- The pinch distance between coincident tips is 0. -/
theorem pinchDist_self (v : Vec2) : App.pinchDist v v = 0 := by
  simp [App.pinchDist]

/-- C6: with a primary hand present, the pinch flag holds iff the
aspect-corrected thumb/index distance is strictly below 0.06 (so distance
exactly 0.06 is not a pinch); while pinching, the growth update is
g + (snapTarget(midY) - g) * 0.15 where snapTarget clamps
(midY - 0.2)/(0.8 - 0.2) to [0,1] and snaps above 0.85 to 1.0 and below 0.15
to 0.0; and a pinch midpoint y = 0.2 gives raw progress 0, snapped target
0.0, and growth eased toward 0. -/
theorem pinch_threshold_and_growth_update :
    (∀ (h : App.Hand) (s : AppState),
        ((App.processFrame [h] s).isPinching = true
          ↔ App.pinchDist (App.thumbTip h) (App.indexTip h) < 0.06))
    ∧ (∀ (h : App.Hand) (s : AppState),
        App.pinchDist (App.thumbTip h) (App.indexTip h) = 0.06 →
          (App.processFrame [h] s).isPinching = false)
    ∧ (∀ (h : App.Hand) (s : AppState),
        App.pinchDist (App.thumbTip h) (App.indexTip h) < 0.06 →
          (App.processFrame [h] s).growth
            = s.growth
              + (App.snapTarget (((App.thumbTip h).y + (App.indexTip h).y) / 2)
                  - s.growth) * 0.15)
    ∧ (∀ y : ℝ, App.snapTarget y
        = (if App.clamp01 ((y - 0.2) / (0.8 - 0.2)) > 0.85 then 1.0
           else if App.clamp01 ((y - 0.2) / (0.8 - 0.2)) < 0.15 then 0.0
           else App.clamp01 ((y - 0.2) / (0.8 - 0.2))))
    ∧ App.snapTarget 0.2 = 0
    ∧ (∀ g : ℝ, App.pinchGrowthUpdate 0.2 g = g + (0 - g) * 0.15) := by
  have hflag : ∀ (h : App.Hand) (s : AppState),
      (App.processFrame [h] s).isPinching
        = decide (App.pinchDist (App.thumbTip h) (App.indexTip h) < 0.06) :=
    fun h s => rfl
  have hgrowth : ∀ (h : App.Hand) (s : AppState),
      (App.processFrame [h] s).growth
        = if App.pinchDist (App.thumbTip h) (App.indexTip h) < 0.06 then
            App.pinchGrowthUpdate
              (((App.thumbTip h).y + (App.indexTip h).y) / 2) s.growth
          else App.autoSnapStep s.growth :=
    fun h s => rfl
  have hsnap02 : App.snapTarget 0.2 = 0 := by
    unfold App.snapTarget App.clamp01
    norm_num
  refine ⟨?_, ?_, ?_, ?_, hsnap02, ?_⟩
  · intro h s
    rw [hflag]
    exact decide_eq_true_iff
  · intro h s hd
    rw [hflag]
    exact decide_eq_false (by rw [hd]; exact lt_irrefl 0.06)
  · intro h s hlt
    rw [hgrowth, if_pos hlt]
    rfl
  · intro y
    simp only [App.snapTarget]
    split_ifs <;> first | rfl | linarith
  · intro g
    unfold App.pinchGrowthUpdate
    rw [hsnap02]

/-- Witness for C6: a thumb/index pair at vertical distance exactly 0.06
with equal x classifies as not pinching. -/
theorem pinch_threshold_and_growth_update_witness :
    App.pinchDist (App.thumbTip (handAt ⟨0.5, 0.53⟩ ⟨0.5, 0.47⟩))
        (App.indexTip (handAt ⟨0.5, 0.53⟩ ⟨0.5, 0.47⟩)) = 0.06
    ∧ (App.processFrame [handAt ⟨0.5, 0.53⟩ ⟨0.5, 0.47⟩]
        (mkState 0.5)).isPinching = false := by
  have hd : App.pinchDist (App.thumbTip (handAt ⟨0.5, 0.53⟩ ⟨0.5, 0.47⟩))
      (App.indexTip (handAt ⟨0.5, 0.53⟩ ⟨0.5, 0.47⟩)) = 0.06 := by
    rw [thumbTip_handAt, indexTip_handAt]
    unfold App.pinchDist App.aspect
    rw [show ((0.5 : ℝ) - 0.5) * (640 / 480) = 0 by norm_num]
    rw [show ((0.53 : ℝ) - 0.47) = 0.06 by norm_num]
    rw [show (0 : ℝ) ^ 2 + (0.06 : ℝ) ^ 2 = 0.06 ^ 2 by norm_num]
    exact Real.sqrt_sq (by norm_num)
  exact ⟨hd, pinch_threshold_and_growth_update.2.1 _ (mkState 0.5) hd⟩

/-- C8: with a secondary hand present, the published distortion state is
exactly {x = 1 - 2 midX, y = 1 - 2 midY, active = pinching}; the published
axes lie in [-1, 1] whenever the tips lie in the unit square; with the
secondary hand absent the active flag is cleared; and a pinching midpoint at
(0.25, 0.25) publishes (0.5, 0.5) with active true. -/
theorem secondary_hand_distortion_publish :
    (∀ (h0 h1 : App.Hand) (s : AppState),
        (App.processFrame [h0, h1] s).distortion
          = { x := 1 - 2 * (((App.thumbTip h1).x + (App.indexTip h1).x) / 2)
              y := 1 - 2 * (((App.thumbTip h1).y + (App.indexTip h1).y) / 2)
              active := decide
                (App.pinchDist (App.thumbTip h1) (App.indexTip h1) < 0.06) })
    ∧ (∀ (h0 h1 : App.Hand) (s : AppState),
        0 ≤ (App.thumbTip h1).x → (App.thumbTip h1).x ≤ 1 →
        0 ≤ (App.indexTip h1).x → (App.indexTip h1).x ≤ 1 →
        0 ≤ (App.thumbTip h1).y → (App.thumbTip h1).y ≤ 1 →
        0 ≤ (App.indexTip h1).y → (App.indexTip h1).y ≤ 1 →
          -1 ≤ (App.processFrame [h0, h1] s).distortion.x
            ∧ (App.processFrame [h0, h1] s).distortion.x ≤ 1
            ∧ -1 ≤ (App.processFrame [h0, h1] s).distortion.y
            ∧ (App.processFrame [h0, h1] s).distortion.y ≤ 1)
    ∧ (∀ (h0 : App.Hand) (s : AppState),
        (App.processFrame [h0] s).distortion.active = false)
    ∧ (∀ s : AppState, (App.processFrame [] s).distortion.active = false)
    ∧ (∀ s : AppState,
        (App.processFrame
            [handAt ⟨0.5, 0.5⟩ ⟨0.5, 0.5⟩, handAt ⟨0.25, 0.25⟩ ⟨0.25, 0.25⟩]
            s).distortion
          = { x := 0.5, y := 0.5, active := true }) := by
  have hpub : ∀ (h0 h1 : App.Hand) (s : AppState),
      (App.processFrame [h0, h1] s).distortion
        = { x := 1 - 2 * (((App.thumbTip h1).x + (App.indexTip h1).x) / 2)
            y := 1 - 2 * (((App.thumbTip h1).y + (App.indexTip h1).y) / 2)
            active := decide
              (App.pinchDist (App.thumbTip h1) (App.indexTip h1) < 0.06) } :=
    fun h0 h1 s => rfl
  refine ⟨hpub, ?_, fun h0 s => rfl, fun s => rfl, ?_⟩
  · intro h0 h1 s htx0 htx1 hix0 hix1 hty0 hty1 hiy0 hiy1
    rw [hpub]
    refine ⟨by dsimp only; linarith, by dsimp only; linarith,
      by dsimp only; linarith, by dsimp only; linarith⟩
  · intro s
    rw [hpub]
    simp only [thumbTip_handAt, indexTip_handAt, DistortionState.mk.injEq]
    refine ⟨by norm_num, by norm_num, ?_⟩
    rw [pinchDist_self]
    simp only [decide_eq_true_iff]
    norm_num

/-- Rotation about the vertical axis preserves the Euclidean length. -/
theorem length3_rotateY (a : ℝ) (v : Vec3) :
    Rose.length3 (Rose.rotateY a v) = Rose.length3 v := by
  unfold Rose.length3 Rose.rotateY
  dsimp only
  congr 1
  linear_combination (v.x ^ 2 + v.z ^ 2) * Real.sin_sq_add_cos_sq a

/-- Multiplying a nonzero complex number by the unit direction of angle a
shifts its argument by a, modulo a full turn. -/
theorem arg_mul_cos_sin_exists (w : ℂ) (a : ℝ) (hw : w ≠ 0) :
    ∃ k : ℤ, (w * (↑(Real.cos a) + ↑(Real.sin a) * Complex.I)).arg
      = w.arg + a + k * (2 * Real.pi) := by
  have hexp : (↑(Real.cos a) + ↑(Real.sin a) * Complex.I)
      = Complex.exp (↑a * Complex.I) := by
    rw [Complex.exp_mul_I, Complex.ofReal_cos, Complex.ofReal_sin]
  have habsw : (↑(Complex.abs w) : ℂ) ≠ 0 :=
    Complex.ofReal_ne_zero.mpr (Complex.abs.ne_zero hw)
  have habs : Complex.abs (w * Complex.exp (↑a * Complex.I)) = Complex.abs w := by
    rw [map_mul, Complex.abs_exp_ofReal_mul_I, mul_one]
  have hz := Complex.abs_mul_exp_arg_mul_I (w * Complex.exp (↑a * Complex.I))
  rw [habs] at hz
  have hw2 := Complex.abs_mul_exp_arg_mul_I w
  have hcancel : Complex.exp (↑(w * Complex.exp (↑a * Complex.I)).arg * Complex.I)
      = Complex.exp (↑(w.arg + a) * Complex.I) := by
    apply mul_left_cancel₀ habsw
    rw [hz, show ((↑(w.arg + a) : ℂ) * Complex.I) = ↑w.arg * Complex.I + ↑a * Complex.I
        by push_cast; ring, Complex.exp_add, ← mul_assoc, hw2]
  obtain ⟨m, hm⟩ := Complex.exp_eq_exp_iff_exists_int.mp hcancel
  refine ⟨m, ?_⟩
  have hre : (↑((w * Complex.exp (↑a * Complex.I)).arg) : ℂ)
      = ↑(w.arg + a + ↑m * (2 * Real.pi)) := by
    apply mul_right_cancel₀ Complex.I_ne_zero
    rw [hm]
    push_cast
    ring
  have := Complex.ofReal_inj.mp hre
  rw [hexp]
  linarith [this]

/-- Closed form of getTulipDisplacement with normalize and atan2 spelled out
componentwise. -/
theorem getTulipDisplacement_eval (u : Rose.Uniforms) (pos : Vec3) :
    Rose.getTulipDisplacement u pos
      = Real.sin ((Rose.atan2 (pos.z / Rose.length3 pos) (pos.x / Rose.length3 pos)
            + Real.arccos (pos.y / Rose.length3 pos) * u.uTwist)
              * u.uPetalCount) * 0.15
        + Rose.smoothstep 0 1.5 (1.5 - Real.arccos (pos.y / Rose.length3 pos))
            * u.uOpenness
            * Real.sin ((Rose.atan2 (pos.z / Rose.length3 pos)
                (pos.x / Rose.length3 pos)
              + Real.arccos (pos.y / Rose.length3 pos) * u.uTwist)
                * u.uPetalCount)
        + Rose.noise ⟨pos.x * 4 + u.uTime * 0.05, pos.z * 4 + u.uTime * 0.05⟩
            * 0.05 * u.uDetail := rfl

/-- C3 amended: with the surface-noise term disabled (detail = 0) and an
integer petal count n > 0, the head displacement is invariant under rotating
the base position about the vertical axis by 2 pi / n.  (The unrestricted
claim fails: the noise term samples the raw xz coordinates, and for
non-integer petal counts the principal-value azimuth wrap breaks the petal
term; see the counterexample.) -/
theorem tulip_azimuth_periodic_integer_petals
    (u : Rose.Uniforms) (n : ℕ) (v : Vec3) (hn : 0 < n)
    (hpc : u.uPetalCount = n) (hdet : u.uDetail = 0) :
    Rose.getTulipDisplacement u (Rose.rotateY (2 * Real.pi / n) v)
      = Rose.getTulipDisplacement u v := by
  have hlen : Rose.length3 (Rose.rotateY (2 * Real.pi / n) v) = Rose.length3 v :=
    length3_rotateY _ v
  have hyy : (Rose.rotateY (2 * Real.pi / n) v).y = v.y := rfl
  rw [getTulipDisplacement_eval, getTulipDisplacement_eval, hdet, hlen, hyy]
  simp only [mul_zero, add_zero]
  have hsin : Real.sin ((Rose.atan2 ((Rose.rotateY (2 * Real.pi / n) v).z / Rose.length3 v)
        ((Rose.rotateY (2 * Real.pi / n) v).x / Rose.length3 v)
        + Real.arccos (v.y / Rose.length3 v) * u.uTwist) * u.uPetalCount)
      = Real.sin ((Rose.atan2 (v.z / Rose.length3 v) (v.x / Rose.length3 v)
        + Real.arccos (v.y / Rose.length3 v) * u.uTwist) * u.uPetalCount) := by
    have hxr : (Rose.rotateY (2 * Real.pi / n) v).x
        = Real.cos (2 * Real.pi / n) * v.x - Real.sin (2 * Real.pi / n) * v.z := rfl
    have hzr : (Rose.rotateY (2 * Real.pi / n) v).z
        = Real.sin (2 * Real.pi / n) * v.x + Real.cos (2 * Real.pi / n) * v.z := rfl
    have hcplx : (↑((Rose.rotateY (2 * Real.pi / n) v).x / Rose.length3 v)
          + ↑((Rose.rotateY (2 * Real.pi / n) v).z / Rose.length3 v) * Complex.I)
        = (↑(v.x / Rose.length3 v) + ↑(v.z / Rose.length3 v) * Complex.I)
            * (↑(Real.cos (2 * Real.pi / n)) + ↑(Real.sin (2 * Real.pi / n))
                * Complex.I) := by
      rw [hxr, hzr]
      apply Complex.ext <;>
        simp only [Complex.add_re, Complex.add_im, Complex.mul_re, Complex.mul_im,
          Complex.ofReal_re, Complex.ofReal_im, Complex.I_re, Complex.I_im] <;>
        ring
    unfold Rose.atan2
    rw [hcplx]
    by_cases hw : (↑(v.x / Rose.length3 v) + ↑(v.z / Rose.length3 v) * Complex.I : ℂ) = 0
    · rw [hw, zero_mul]
    · obtain ⟨k, hk⟩ := arg_mul_cos_sin_exists _ (2 * Real.pi / n) hw
      rw [hk, hpc]
      have hne : (n : ℝ) ≠ 0 := Nat.cast_ne_zero.mpr hn.ne'
      have hDn : 2 * Real.pi / n * n = 2 * Real.pi := by field_simp
      have hexpand : ((↑(v.x / Rose.length3 v) + ↑(v.z / Rose.length3 v)
              * Complex.I : ℂ).arg + 2 * Real.pi / n + k * (2 * Real.pi)
            + Real.arccos (v.y / Rose.length3 v) * u.uTwist) * (n : ℝ)
          = (((↑(v.x / Rose.length3 v) + ↑(v.z / Rose.length3 v)
              * Complex.I : ℂ).arg
            + Real.arccos (v.y / Rose.length3 v) * u.uTwist) * (n : ℝ))
            + ((1 + k * (n : ℤ) : ℤ) : ℝ) * (2 * Real.pi) := by
        push_cast
        linear_combination hDn
      rw [hexpand, Real.sin_add_int_mul_two_pi]
  rw [hsin]

/-- Uniforms used by the azimuth-periodicity counterexample: petalCount 1.5
(a value the UI slider allows), twist 0, openness 0, detail 0. -/
def tulipCxUniforms : Rose.Uniforms :=
  { uTime := 0, uPetalCount := 1.5, uTwist := 0, uOpenness := 0, uDetail := 0,
    uParticleSize := 0.022, uScanY := 10 }

/-- Evaluation of the head displacement on the unit equator point of azimuth
theta when twist, openness and detail are all 0. -/
theorem tulip_on_equator (u : Rose.Uniforms) (hop : u.uOpenness = 0)
    (hdet : u.uDetail = 0) (htw : u.uTwist = 0) (a : ℝ)
    (h1 : -Real.pi < a) (h2 : a ≤ Real.pi) :
    Rose.getTulipDisplacement u ⟨Real.cos a, 0, Real.sin a⟩
      = Real.sin (a * u.uPetalCount) * 0.15 := by
  rw [getTulipDisplacement_eval, hop, hdet, htw]
  have hlen1 : Rose.length3 ⟨Real.cos a, 0, Real.sin a⟩ = 1 := by
    unfold Rose.length3
    dsimp only
    rw [show Real.cos a ^ 2 + (0 : ℝ) ^ 2 + Real.sin a ^ 2 = 1 by
      linear_combination Real.sin_sq_add_cos_sq a]
    exact Real.sqrt_one
  rw [hlen1]
  dsimp only
  rw [div_one, div_one, div_one]
  unfold Rose.atan2
  rw [Complex.ofReal_cos, Complex.ofReal_sin,
    Complex.arg_cos_add_sin_mul_I ⟨h1, h2⟩]
  rw [show a + Real.arccos 0 * 0 = a by ring]
  ring

/-- C3 counterexample: with petalCount 1.5 (twist, openness, detail all 0,
time 0), rotating the equator point of azimuth pi/3 about the vertical axis
by 2 pi / petalCount gives the equator point of azimuth -pi/3, and the two
head displacements differ (0.15 versus -0.15): the principal-value azimuth
wraps and sin((theta - 2 pi) * 1.5) = -sin(theta * 1.5). -/
theorem tulip_azimuth_period_counterexample :
    Rose.rotateY (2 * Real.pi / tulipCxUniforms.uPetalCount)
        ⟨1 / 2, 0, Real.sqrt 3 / 2⟩
      = ⟨1 / 2, 0, -(Real.sqrt 3 / 2)⟩
    ∧ Rose.getTulipDisplacement tulipCxUniforms ⟨1 / 2, 0, -(Real.sqrt 3 / 2)⟩
      ≠ Rose.getTulipDisplacement tulipCxUniforms ⟨1 / 2, 0, Real.sqrt 3 / 2⟩ := by
  have hproj : tulipCxUniforms.uPetalCount = 1.5 := rfl
  have hang : 2 * Real.pi / (1.5 : ℝ) = Real.pi + Real.pi / 3 := by ring
  have hsqrt3 : Real.sqrt 3 * Real.sqrt 3 = 3 :=
    Real.mul_self_sqrt (by norm_num)
  have hc : Real.cos (2 * Real.pi / (1.5 : ℝ)) = -(1 / 2) := by
    rw [hang, Real.cos_add, Real.cos_pi, Real.sin_pi, Real.cos_pi_div_three,
      Real.sin_pi_div_three]
    ring
  have hs : Real.sin (2 * Real.pi / (1.5 : ℝ)) = -(Real.sqrt 3 / 2) := by
    rw [hang, Real.sin_add, Real.cos_pi, Real.sin_pi, Real.cos_pi_div_three,
      Real.sin_pi_div_three]
    ring
  have hpt1 : (⟨1 / 2, 0, Real.sqrt 3 / 2⟩ : Vec3)
      = ⟨Real.cos (Real.pi / 3), 0, Real.sin (Real.pi / 3)⟩ := by
    rw [Real.cos_pi_div_three, Real.sin_pi_div_three]
  have hpt2 : (⟨1 / 2, 0, -(Real.sqrt 3 / 2)⟩ : Vec3)
      = ⟨Real.cos (-(Real.pi / 3)), 0, Real.sin (-(Real.pi / 3))⟩ := by
    rw [Real.cos_neg, Real.sin_neg, Real.cos_pi_div_three,
      Real.sin_pi_div_three]
  have hpi := Real.pi_pos
  have e1 : Rose.getTulipDisplacement tulipCxUniforms ⟨1 / 2, 0, Real.sqrt 3 / 2⟩
      = 0.15 := by
    rw [hpt1, tulip_on_equator tulipCxUniforms rfl rfl rfl (Real.pi / 3)
      (by linarith) (by linarith)]
    rw [hproj, show Real.pi / 3 * (1.5 : ℝ) = Real.pi / 2 by ring,
      Real.sin_pi_div_two]
    norm_num
  have e2 : Rose.getTulipDisplacement tulipCxUniforms
      ⟨1 / 2, 0, -(Real.sqrt 3 / 2)⟩ = -0.15 := by
    rw [hpt2, tulip_on_equator tulipCxUniforms rfl rfl rfl (-(Real.pi / 3))
      (by linarith) (by linarith)]
    rw [hproj, show -(Real.pi / 3) * (1.5 : ℝ) = -(Real.pi / 2) by ring,
      Real.sin_neg, Real.sin_pi_div_two]
    norm_num
  refine ⟨?_, ?_⟩
  · rw [hproj]
    refine Vec3.ext ?_ ?_ ?_
    · show Real.cos (2 * Real.pi / (1.5 : ℝ)) * (1 / 2)
        - Real.sin (2 * Real.pi / (1.5 : ℝ)) * (Real.sqrt 3 / 2) = 1 / 2
      rw [hc, hs]
      linear_combination (1 / 4) * hsqrt3
    · rfl
    · show Real.sin (2 * Real.pi / (1.5 : ℝ)) * (1 / 2)
        + Real.cos (2 * Real.pi / (1.5 : ℝ)) * (Real.sqrt 3 / 2)
        = -(Real.sqrt 3 / 2)
      rw [hc, hs]
      ring
  · rw [e1, e2]
    norm_num

/-- Witness for the amended C3 at petal count 3 and the equator point of
azimuth 0. -/
theorem tulip_azimuth_periodic_integer_petals_witness :
    0 < 3
    ∧ Rose.getTulipDisplacement
        { uTime := 0, uPetalCount := ((3 : ℕ) : ℝ), uTwist := 0.8,
          uOpenness := 0.6, uDetail := 0, uParticleSize := 0.022, uScanY := 10 }
        (Rose.rotateY (2 * Real.pi / ((3 : ℕ) : ℝ)) ⟨1, 0, 0⟩)
      = Rose.getTulipDisplacement
        { uTime := 0, uPetalCount := ((3 : ℕ) : ℝ), uTwist := 0.8,
          uOpenness := 0.6, uDetail := 0, uParticleSize := 0.022, uScanY := 10 }
        ⟨1, 0, 0⟩ :=
  ⟨by norm_num,
    tulip_azimuth_periodic_integer_petals _ 3 _ (by norm_num) rfl rfl⟩

/-- One smoothing tick with target above the current value moves the value up
without overshooting the target (any gain in [0, 1]). -/
theorem step_between_le (k t g : ℝ) (hk0 : 0 ≤ k) (hk1 : k ≤ 1) (h : g ≤ t) :
    g ≤ App.step k t g ∧ App.step k t g ≤ t := by
  unfold App.step
  constructor <;> nlinarith

/-- One smoothing tick with target below the current value moves the value
down without overshooting the target (any gain in [0, 1]). -/
theorem step_between_ge (k t g : ℝ) (hk0 : 0 ≤ k) (hk1 : k ≤ 1) (h : t ≤ g) :
    App.step k t g ≤ g ∧ t ≤ App.step k t g := by
  unfold App.step
  constructor <;> nlinarith

/-- One smoothing tick contracts the distance to the target by the factor
1 - k. -/
theorem step_dist (k t g : ℝ) (hk1 : k ≤ 1) :
    |App.step k t g - t| = (1 - k) * |g - t| := by
  unfold App.step
  rw [show g + (t - g) * k - t = (1 - k) * (g - t) by ring, abs_mul,
    abs_of_nonneg (by linarith : (0 : ℝ) ≤ 1 - k)]

/-- C7: iterating growth := growth + (target - growth) * k with a constant
target in [0,1] and gain k = 0.15 (pinching) or k = 0.1 (auto-snap) is
monotone toward the target, never overshoots, and is within 1/1000 of the
target after 66 ticks from any start in [0,1]; the auto-snap iteration from
0.9 strictly increases toward 1.0 and never drops below 0.9; growth 0 and 1
are fixed points of the no-pinch rule; and the pinching update is exactly
this smoothing step with gain 0.15. -/
theorem growth_smoothing_convergence :
    (∀ k t g0 : ℝ, (k = 0.15 ∨ k = 0.1) → 0 ≤ t → t ≤ 1 → 0 ≤ g0 → g0 ≤ 1 →
      (g0 ≤ t → ∀ n : ℕ, (App.step k t)^[n] g0 ≤ (App.step k t)^[n + 1] g0
          ∧ (App.step k t)^[n] g0 ≤ t)
        ∧ (t ≤ g0 → ∀ n : ℕ, (App.step k t)^[n + 1] g0 ≤ (App.step k t)^[n] g0
          ∧ t ≤ (App.step k t)^[n] g0)
        ∧ |(App.step k t)^[66] g0 - t| < 1 / 1000)
    ∧ (∀ n : ℕ, 0.9 ≤ App.autoSnapStep^[n] (0.9 : ℝ)
        ∧ App.autoSnapStep^[n] (0.9 : ℝ) < 1
        ∧ App.autoSnapStep^[n] (0.9 : ℝ) < App.autoSnapStep^[n + 1] (0.9 : ℝ))
    ∧ App.autoSnapStep 0 = 0
    ∧ App.autoSnapStep 1 = 1
    ∧ (∀ y g : ℝ,
        App.pinchGrowthUpdate y g = App.step 0.15 (App.snapTarget y) g) := by
  refine ⟨?_, ?_, ?_, ?_, fun y g => rfl⟩
  · intro k t g0 hk ht0 ht1 hg0 hg1
    have hk0 : 0 ≤ k := by rcases hk with h | h <;> rw [h] <;> norm_num
    have hk1 : k ≤ 1 := by rcases hk with h | h <;> rw [h] <;> norm_num
    have hk9 : 1 - k ≤ 0.9 := by rcases hk with h | h <;> rw [h] <;> norm_num
    refine ⟨?_, ?_, ?_⟩
    · intro hle
      have hinv : ∀ n : ℕ, (App.step k t)^[n] g0 ≤ t := by
        intro n
        induction n with
        | zero => exact hle
        | succ n ih =>
          rw [Function.iterate_succ_apply']
          exact (step_between_le k t _ hk0 hk1 ih).2
      intro n
      rw [Function.iterate_succ_apply']
      exact ⟨(step_between_le k t _ hk0 hk1 (hinv n)).1, hinv n⟩
    · intro hge
      have hinv : ∀ n : ℕ, t ≤ (App.step k t)^[n] g0 := by
        intro n
        induction n with
        | zero => exact hge
        | succ n ih =>
          rw [Function.iterate_succ_apply']
          exact (step_between_ge k t _ hk0 hk1 ih).2
      intro n
      rw [Function.iterate_succ_apply']
      exact ⟨(step_between_ge k t _ hk0 hk1 (hinv n)).1, hinv n⟩
    · have hd : ∀ n : ℕ,
          |(App.step k t)^[n] g0 - t| = (1 - k) ^ n * |g0 - t| := by
        intro n
        induction n with
        | zero => simp
        | succ n ih =>
          rw [Function.iterate_succ_apply', step_dist k t _ hk1, ih,
            pow_succ]
          ring
      have h1 : |g0 - t| ≤ 1 := abs_le.mpr ⟨by linarith, by linarith⟩
      have h2 : (1 - k) ^ 66 ≤ (0.9 : ℝ) ^ 66 :=
        pow_le_pow_left₀ (by linarith) hk9 66
      have h3 : (0.9 : ℝ) ^ 66 < 1 / 1000 := by norm_num
      calc |(App.step k t)^[66] g0 - t| = (1 - k) ^ 66 * |g0 - t| := hd 66
        _ ≤ (0.9 : ℝ) ^ 66 * 1 :=
            mul_le_mul h2 h1 (abs_nonneg _) (by positivity)
        _ < 1 / 1000 := by rw [mul_one]; exact h3
  · have hstep09 : ∀ a : ℝ, 0.9 ≤ a → a < 1 →
        a < App.autoSnapStep a ∧ App.autoSnapStep a < 1
          ∧ 0.9 ≤ App.autoSnapStep a := by
      intro a ha hb
      unfold App.autoSnapStep
      rw [if_pos (by linarith : a > 0.85)]
      refine ⟨by nlinarith, by nlinarith, by nlinarith⟩
    have hinv : ∀ n : ℕ, 0.9 ≤ App.autoSnapStep^[n] (0.9 : ℝ)
        ∧ App.autoSnapStep^[n] (0.9 : ℝ) < 1 := by
      intro n
      induction n with
      | zero => exact ⟨le_refl _, by norm_num⟩
      | succ n ih =>
        rw [Function.iterate_succ_apply']
        exact ⟨(hstep09 _ ih.1 ih.2).2.2, (hstep09 _ ih.1 ih.2).2.1⟩
    intro n
    refine ⟨(hinv n).1, (hinv n).2, ?_⟩
    rw [Function.iterate_succ_apply']
    exact (hstep09 _ (hinv n).1 (hinv n).2).1
  · unfold App.autoSnapStep
    rw [if_neg (by norm_num), if_pos (by norm_num)]
    norm_num
  · unfold App.autoSnapStep
    rw [if_pos (by norm_num)]
    norm_num

/-- Witness for C7: gain 0.15, target 1, start 0 reaches within 1/1000 of
the target in 66 ticks. -/
theorem growth_smoothing_convergence_witness :
    ((0.15 : ℝ) = 0.15 ∨ (0.15 : ℝ) = 0.1)
    ∧ |(App.step 0.15 1)^[66] (0 : ℝ) - 1| < 1 / 1000 :=
  ⟨Or.inl rfl,
    (growth_smoothing_convergence.1 0.15 1 0 (Or.inl rfl) (by norm_num)
      (by norm_num) (by norm_num) (by norm_num)).2.2⟩

/-- In a trace without a successful camera start, the camera never runs and
the distortion active flag is never changed (detection frames are no-ops). -/
theorem camOkFree_preserves (es : List App.Event) :
    ∀ s : AppState, App.Event.camOk ∉ es → s.cameraRunning = false →
      (App.runEvents es s).cameraRunning = false
        ∧ (App.runEvents es s).distortion.active = s.distortion.active := by
  induction es with
  | nil => exact fun s _ h => ⟨h, rfl⟩
  | cons e es ih =>
    intro s hmem hcam
    have hne : e ≠ App.Event.camOk := fun h => hmem (h ▸ List.mem_cons_self e es)
    have hmem2 : App.Event.camOk ∉ es := fun h => hmem (List.mem_cons_of_mem e h)
    have hrun : App.runEvents (e :: es) s = App.runEvents es (App.stepEvent s e) :=
      rfl
    have hstep : (App.stepEvent s e).cameraRunning = false
        ∧ (App.stepEvent s e).distortion.active = s.distortion.active := by
      cases e with
      | camOk => exact absurd rfl hne
      | camFail => exact ⟨hcam, rfl⟩
      | mediaFail => exact ⟨hcam, rfl⟩
      | frame hands => simp [App.stepEvent, hcam]
    have hrec := ih (App.stepEvent s e) hmem2 hstep.1
    rw [hrun]
    exact ⟨hrec.1, hrec.2.trans hstep.2⟩

/-- C9: when camera acquisition fails (with no successful camera start
beforehand), the failure handler forces growth to 1.0, the distortion state
is still inactive (no detection frame ever ran), and the condition is
surfaced as the recoverable permissionError status with loading cleared; all
transitions are total functions, so the structure renders fully built and
static rather than crashing. -/
theorem camera_failure_safe (es : List App.Event)
    (hAbs : App.Event.camOk ∉ es) :
    (App.runEvents (es ++ [App.Event.camFail]) App.initState).growth = 1
    ∧ (App.runEvents (es ++ [App.Event.camFail])
        App.initState).distortion.active = false
    ∧ (App.runEvents (es ++ [App.Event.camFail])
        App.initState).permissionError = true
    ∧ (App.runEvents (es ++ [App.Event.camFail]) App.initState).loading
        = false := by
  have hsplit : App.runEvents (es ++ [App.Event.camFail]) App.initState
      = App.stepEvent (App.runEvents es App.initState) App.Event.camFail := by
    unfold App.runEvents
    rw [List.foldl_append]
    rfl
  have hinv := camOkFree_preserves es App.initState hAbs rfl
  rw [hsplit]
  exact ⟨by norm_num [App.stepEvent], hinv.2.trans rfl, rfl, rfl⟩

/-- Witness for C9 with the empty prefix trace. -/
theorem camera_failure_safe_witness :
    App.Event.camOk ∉ ([] : List App.Event)
    ∧ (App.runEvents ([] ++ [App.Event.camFail]) App.initState).growth = 1 :=
  ⟨by simp, (camera_failure_safe [] (by simp)).1⟩

/-- C10: for stem and leaf particles the Shape Field leaves the vertical
coordinate unchanged for every parameter setting and time (wind affects only
x and z, and the leaf flutter direction has zero y-component as generated:
stem directions are (cos theta, 0, sin theta), leaf directions (px, 0, pz));
consequently the activation of such a particle is a function of growth and
its random seed only, independent of time and configuration. -/
theorem stem_leaf_vertical_preserved :
    (∀ (u : Rose.Uniforms) (p : Rose.Particle),
        (p.aType = 1 ∨ p.aType = 2) → p.aDirection.y = 0 →
          (Rose.shapePos u p).y = p.position.y)
    ∧ (∀ (u : Rose.Uniforms) (p : Rose.Particle),
        (p.aType = 1 ∨ p.aType = 2) → p.aDirection.y = 0 →
          Rose.activation u p
            = Rose.smoothstep (-1) 1
                (p.position.y - u.uScanY + (p.aRandom - 0.5) * 2))
    ∧ (∀ (c1 c2 : Rose.RoseConfig) (g t1 t2 : ℝ) (p : Rose.Particle),
        (p.aType = 1 ∨ p.aType = 2) → p.aDirection.y = 0 →
          Rose.activation (Rose.mkUniforms c1 g t1) p
            = Rose.activation (Rose.mkUniforms c2 g t2) p)
    ∧ (∀ theta : ℝ, (Rose.stemDirection theta).y = 0)
    ∧ (∀ px pz : ℝ, (Rose.leafDirection px pz).y = 0) := by
  have hy : ∀ (u : Rose.Uniforms) (p : Rose.Particle),
      (p.aType = 1 ∨ p.aType = 2) → p.aDirection.y = 0 →
        (Rose.shapePos u p).y = p.position.y := by
    intro u p htype hdir
    have hnot : ¬(p.aType < 0.5) := by
      rcases htype with h | h <;> rw [h] <;> norm_num
    rcases htype with h | h
    · have hne2 : ¬(p.aType > 1.5) := by rw [h]; norm_num
      simp only [Rose.shapePos]
      rw [if_neg hnot, if_neg hne2]
    · have hpos2 : p.aType > 1.5 := by rw [h]; norm_num
      simp only [Rose.shapePos]
      rw [if_neg hnot, if_pos hpos2]
      show p.position.y + p.aDirection.y * _ * 0.02 = p.position.y
      rw [hdir]
      ring
  have hact : ∀ (u : Rose.Uniforms) (p : Rose.Particle),
      (p.aType = 1 ∨ p.aType = 2) → p.aDirection.y = 0 →
        Rose.activation u p
          = Rose.smoothstep (-1) 1
              (p.position.y - u.uScanY + (p.aRandom - 0.5) * 2) := by
    intro u p htype hdir
    unfold Rose.activation
    rw [hy u p htype hdir]
  refine ⟨hy, hact, ?_, fun theta => rfl, fun px pz => rfl⟩
  intro c1 c2 g t1 t2 p htype hdir
  rw [hact _ p htype hdir, hact _ p htype hdir]
  rfl

/-- Witness for C10 at a concrete stem particle. -/
theorem stem_leaf_vertical_preserved_witness :
    ((1 : ℝ) = 1 ∨ (1 : ℝ) = 2)
    ∧ (Rose.shapePos
        { uTime := 5, uPetalCount := 3, uTwist := 0.8, uOpenness := 0.6,
          uDetail := 0.5, uParticleSize := 0.022, uScanY := 10 }
        { position := ⟨0, -3, 0⟩, aRandom := 0.5, aType := 1,
          aDirection := Rose.stemDirection 0 }).y = -3 :=
  ⟨Or.inl rfl, stem_leaf_vertical_preserved.1 _ _ (Or.inl rfl) rfl⟩

/-- Witness for C5 at a concrete seed 0.3 (corner id 1). -/
theorem corner_spawn_mix_structure_witness :
    (0 : ℝ) ≤ 0.3 ∧ (0.3 : ℝ) < 1 ∧ (Rose.cornerBase (0.3 : ℝ)).y = 12.5 :=
  ⟨by norm_num, by norm_num,
    (corner_spawn_mix_structure
      { uTime := 0, uPetalCount := 3, uTwist := 0.8, uOpenness := 0.6,
        uDetail := 0.5, uParticleSize := 0.022, uScanY := 10 }
      { position := ⟨0, 0, 0⟩, aRandom := 0.3, aType := 0,
        aDirection := ⟨0, 0, 0⟩ }
      (by norm_num) (by norm_num)).2.2.1⟩

/-- Witness for C8: with both secondary-hand tips at (0.25, 0.25), the
published axes lie in [-1, 1]. -/
theorem secondary_hand_distortion_publish_witness :
    -1 ≤ (App.processFrame
        [handAt ⟨0.5, 0.5⟩ ⟨0.5, 0.5⟩, handAt ⟨0.25, 0.25⟩ ⟨0.25, 0.25⟩]
        (mkState 0.5)).distortion.x
    ∧ (App.processFrame
        [handAt ⟨0.5, 0.5⟩ ⟨0.5, 0.5⟩, handAt ⟨0.25, 0.25⟩ ⟨0.25, 0.25⟩]
        (mkState 0.5)).distortion.x ≤ 1
    ∧ -1 ≤ (App.processFrame
        [handAt ⟨0.5, 0.5⟩ ⟨0.5, 0.5⟩, handAt ⟨0.25, 0.25⟩ ⟨0.25, 0.25⟩]
        (mkState 0.5)).distortion.y
    ∧ (App.processFrame
        [handAt ⟨0.5, 0.5⟩ ⟨0.5, 0.5⟩, handAt ⟨0.25, 0.25⟩ ⟨0.25, 0.25⟩]
        (mkState 0.5)).distortion.y ≤ 1 :=
  secondary_hand_distortion_publish.2.1
    (handAt ⟨0.5, 0.5⟩ ⟨0.5, 0.5⟩) (handAt ⟨0.25, 0.25⟩ ⟨0.25, 0.25⟩)
    (mkState 0.5)
    (by norm_num [thumbTip_handAt]) (by norm_num [thumbTip_handAt])
    (by norm_num [indexTip_handAt]) (by norm_num [indexTip_handAt])
    (by norm_num [thumbTip_handAt]) (by norm_num [thumbTip_handAt])
    (by norm_num [indexTip_handAt]) (by norm_num [indexTip_handAt])

end
